import Mathlib

/-!
Verification development for the HAHD repository.

The repository consists of two Python scripts:

* `src/Data/main.py` — dataset acquisition: a three-method fallback download
  routine for the gaze CSV, a login/fetch/prune routine for the Cityscapes
  archive, PNG→JPEG conversion with renaming, and a final verification step;
* `src/DataAnalysis/main.py` — gaze-heatmap visualization: image-group
  selection, and three heatmap variants (aggregate, viewer-separated,
  temporal) built by scatter/blur/normalize.

Below, each relevant routine is shallowly embedded as a pure Lean function.
External effects (network calls raising, image decode/encode raising, the
Gaussian blur) are passed in as explicit parameters; the filesystem is
modelled as explicit state (which files exist).  Names follow the source.
-/

namespace HAHD

/-! ### Data/main.py — gaze dataset download (`download_gaze_dataset`, lines 86-142)

The state of the `gaze_data` directory that the three download methods and the
mapping-file copy touch: whether `hazardous_detection_gaze_data.csv` exists and
whether the `mapping.csv` copy exists. -/

structure GazeDirState where
  gazeCsv : Bool
  mappingCopy : Bool
  deriving DecidableEq

/-- A download method either raises (modelled `none`; the raising parameter is
supplied by the environment) or returns the Python return value together with
the updated directory state.  `_download_using_api` (lines 144-169) only lists
the repository files; on success it returns `True` and writes nothing. -/
def _download_using_api (raises : Bool) (s : GazeDirState) :
    Option (Bool × GazeDirState) :=
  if raises then none else some (true, s)

/-- `_download_using_hub` (lines 171-198) downloads
`hazardous_detection_gaze_data.csv` into the gaze_data directory and returns
`True`.  A raising attempt is modelled as leaving the state unchanged. -/
def _download_using_hub (raises : Bool) (s : GazeDirState) :
    Option (Bool × GazeDirState) :=
  if raises then none else some (true, { s with gazeCsv := true })

/-- `_download_using_https` (lines 200-242) streams the same CSV into the
gaze_data directory and returns `True`. -/
def _download_using_https (raises : Bool) (s : GazeDirState) :
    Option (Bool × GazeDirState) :=
  if raises then none else some (true, { s with gazeCsv := true })

/-- The `for method in download_methods` loop of `download_gaze_dataset`
(lines 123-131): `success = method(token)`, break on a truthy return, and an
exception (`none`) is swallowed (`continue`), keeping the previous state. -/
def tryDownloadMethods (s : GazeDirState) :
    List (GazeDirState → Option (Bool × GazeDirState)) → Bool × GazeDirState
  | [] => (false, s)
  | m :: rest =>
    match m s with
    | none => tryDownloadMethods s rest
    | some (succ, s1) => if succ then (true, s1) else tryDownloadMethods s1 rest

/-- Result of `download_gaze_dataset`: either it returns normally with the
directory state, or it prints the troubleshooting checklist and the process
exits with status 1 (lines 133-142). -/
inductive DownloadOutcome where
  | ok (s : GazeDirState)
  | troubleshootAndExit1
  deriving DecidableEq

/-- `download_gaze_dataset` (lines 86-142): try the three methods in order
API, hub, HTTPS; if none succeeded raise, which is caught by the outer
handler that prints the troubleshooting steps and calls `sys.exit(1)`; on
success copy the mapping file into the gaze_data directory (line 137). -/
def download_gaze_dataset (apiRaises hubRaises httpsRaises : Bool)
    (s : GazeDirState) : DownloadOutcome :=
  let r := tryDownloadMethods s
    [_download_using_api apiRaises, _download_using_hub hubRaises,
     _download_using_https httpsRaises]
  if r.1 then .ok { r.2 with mappingCopy := true } else .troubleshootAndExit1

/-! ### Data/main.py — setup verification (`verify_setup` lines 411-452,
`setup` lines 454-508) -/

/-- `verify_setup` (lines 433-452): start from `success = True`, clear it if
the gaze CSV is missing, clear it if the recursive glob for `*.jpg` under the
cityscapes directory found nothing, and return it.  `jpgFiles` is the glob
result. -/
def verify_setup (gazeFileExists : Bool) (jpgFiles : List (List Char)) : Bool :=
  let success := true
  let success := if !gazeFileExists then false else success
  let success := if jpgFiles.isEmpty then false else success
  success

/-- Tail of `setup` (lines 496-508): log the summary when `verify_setup`
returned `True`, otherwise `sys.exit(1)`. -/
inductive SetupResult where
  | complete
  | exit1
  deriving DecidableEq

/-- The final step of `setup`: branch on `verify_setup`. -/
def setup_finalize (gazeFileExists : Bool) (jpgFiles : List (List Char)) :
    SetupResult :=
  if verify_setup gazeFileExists jpgFiles then .complete else .exit1

/-! ### Data/main.py — mapping table and archive pruning
(`download_cityscapes`, lines 336-341) -/

/-- One row of `cityscapes_mapping.csv`: the archive-internal filename and the
renamed filename used by the gaze dataset.  Filenames are character lists. -/
structure MappingEntry where
  cityscapeName : List Char
  imageName : List Char
  deriving DecidableEq

/-- Python substring test `needle in haystack` on strings. -/
def hasSubstr (needle : List Char) : List Char → Bool
  | [] => needle.isEmpty
  | c :: rest => needle.isPrefixOf (c :: rest) || hasSubstr needle rest

/-- `needed_images = set(mapping_df[cityscapeName].unique())` (line 299):
the distinct cityscape names of the mapping table. -/
def needed_images (mapping : List MappingEntry) : List (List Char) :=
  (mapping.map (fun e => e.cityscapeName)).dedup

/-- The extraction loop of `download_cityscapes` (lines 338-341): an entry of
`zip_ref.namelist()` is extracted iff
`any(needed_image in file for needed_image in needed_images)`.  Returns the
list of extracted entry names. -/
def extractPrune (mapping : List MappingEntry) (namelist : List (List Char)) :
    List (List Char) :=
  namelist.filter (fun file =>
    (needed_images mapping).any (fun needed => hasSubstr needed file))

/-! ### Data/main.py — image conversion (`_process_images`, lines 354-409) -/

/-- A PNG file found by `self.cityscapes_dir.rglob("*_leftImg8bit.png")`
(line 392): its full path under the cityscapes directory and its basename
(`png_path.name`). -/
structure PngFile where
  path : List Char
  name : List Char
  deriving DecidableEq

/-- A JPEG written by `img.convert(RGB).save(jpg_path, JPEG, quality=95)`
(line 400): the target basename (directly under the cityscapes root), the
color mode forced by `convert`, the format, and the quality setting. -/
structure SavedImage where
  name : List Char
  mode : List Char
  format : List Char
  quality : Nat
  deriving DecidableEq

/-- The files under the cityscapes directory that `_process_images` touches:
the PNG files still on disk and the JPEG files written so far. -/
structure ImagesState where
  pngs : List PngFile
  saved : List SavedImage
  deriving DecidableEq

/-- `rename_map = dict(zip(mapping_df[cityscapeName], mapping_df[imageName]))`
(line 389), queried at a basename.  A Python dict keeps the last binding of a
duplicated key, hence the lookup over the reversed list. -/
def rename_map (mapping : List MappingEntry) (name : List Char) :
    Option (List Char) :=
  (mapping.reverse.find? (fun e => e.cityscapeName == name)).map
    (fun e => e.imageName)

/-- Loop body of `_process_images` (lines 394-404) for one PNG file.
`raises` tells whether `Image.open` / `convert` / `save` raises for this file
(the environment's decision).  If the basename is not a key of the rename
map, nothing happens.  If conversion raises, the `except` clause logs and the
state is unchanged — in particular `png_path.unlink()` (line 402) is not
reached, so the PNG stays.  Otherwise the JPEG is written and then the source
PNG removed. -/
def processPng (raises : PngFile → Bool)
    (rm : List Char → Option (List Char)) (st : ImagesState) (p : PngFile) :
    ImagesState :=
  match rm p.name with
  | none => st
  | some target =>
    if raises p then st
    else
      { pngs := st.pngs.erase p,
        saved := st.saved ++
          [⟨target, ['R', 'G', 'B'], ['J', 'P', 'E', 'G'], 95⟩] }

/-- `_process_images` (lines 354-404): iterate the loop body over the list of
PNG files found by the recursive glob, starting from the state in which
exactly those PNGs exist and no JPEG has been written yet. -/
def _process_images (raises : PngFile → Bool) (mapping : List MappingEntry)
    (pngs : List PngFile) : ImagesState :=
  pngs.foldl (processPng raises (rename_map mapping)) ⟨pngs, []⟩

/-- A PNG file is successfully converted iff its basename is a key of the
rename map and its conversion does not raise. -/
def pngSuccess (raises : PngFile → Bool)
    (rm : List Char → Option (List Char)) (p : PngFile) : Bool :=
  (rm p.name).isSome && !(raises p)

/-! ### Concrete instances used by witnesses and counterexamples -/

/-- The glob suffix `_leftImg8bit.png` of line 392, as a character list. -/
def suffixLI : List Char := "_leftImg8bit.png".toList

/-- A renamed image filename used in concrete instances below. -/
def img1jpg : List Char := "img1.jpg".toList

/-- A concrete found PNG file: basename `a_leftImg8bit.png`, lying in a
subdirectory `c` of the cityscapes directory. -/
def pngA : PngFile := ⟨'c' :: '/' :: 'a' :: suffixLI, 'a' :: suffixLI⟩

/-- A concrete one-row mapping table sending `a_leftImg8bit.png` to
`img1.jpg`. -/
def mappingA : List MappingEntry := [⟨'a' :: suffixLI, img1jpg⟩]

/-! ### DataAnalysis/main.py — heatmap normalization
(lines 123-126, 153-154 and 214-216)

All three heatmap variants end with
`if np.max(heatmap) > 0: heatmap = heatmap / np.max(heatmap)`.
A scalar raster (aggregate and viewer-separated variants) is modelled as the
flat list of its values; the temporal variant's 3-channel raster is modelled
as rows of RGB triples. -/

/-- `np.max` over the raster values.  The rasters this is applied to consist
of non-negative densities, for which folding `max` from `0` agrees with
NumPy's maximum over a non-empty array. -/
def npMax (values : List ℚ) : ℚ := values.foldl max 0

/-- The normalization step shared by the heatmap variants: divide by the
maximum when it is positive, otherwise leave the raster untouched. -/
def normalizeHeatmap (values : List ℚ) : List ℚ :=
  if 0 < npMax values then values.map (fun v => v / npMax values)
  else values

/-- A 3-channel raster: rows of RGB triples (the temporal variant). -/
abbrev Raster3 := List (List (ℚ × ℚ × ℚ))

/-- The three channel values of one pixel. -/
def chanList (c : ℚ × ℚ × ℚ) : List ℚ := [c.1, c.2.1, c.2.2]

/-- All values of a 3-channel raster as a flat list (the order `np.max`
ranges over is irrelevant to a maximum). -/
def flatten3 (r : Raster3) : List ℚ :=
  (r.map (fun row => (row.map chanList).flatten)).flatten

/-- `np.max(heatmap)` of the 3-channel raster (line 214). -/
def raster3Max (r : Raster3) : ℚ := npMax (flatten3 r)

/-- Normalization of the 3-channel raster (lines 214-216): divide every
channel of every pixel by the global maximum when it is positive. -/
def normalizeRaster3 (r : Raster3) : Raster3 :=
  if 0 < raster3Max r then
    r.map (fun row => row.map (fun c =>
      (c.1 / raster3Max r, c.2.1 / raster3Max r, c.2.2 / raster3Max r)))
  else r

/-! ### DataAnalysis/main.py — image selection (`select_random_images`,
lines 81-96) -/

/-- A gaze record as far as grouping is concerned: the identifying columns
`testSet`, `questionImage` and `timestamp` of one CSV row. -/
structure GazeRecord where
  testSet : List Char
  questionImage : List Char
  timestamp : List Char
  deriving DecidableEq

/-- The image-group key of a record: `(testSet, questionImage)`. -/
abbrev ImageKey := List Char × List Char

/-- The grouping key used by `groupby([testSet, questionImage])`. -/
def recordKey (rec : GazeRecord) : ImageKey := (rec.testSet, rec.questionImage)

/-- `valid_images` (lines 84-88): the distinct `(testSet, questionImage)`
keys whose group has more than 2 records (`count > 2`). -/
def qualifying (records : List GazeRecord) : List ImageKey :=
  ((records.map recordKey).dedup).filter
    (fun k => 2 < (records.map recordKey).count k)

/-- `select_random_images` (lines 81-96): warn and shrink `n` to the number
of qualifying groups when fewer than `n` qualify, then
`random.sample(valid_images, n)`.  `random.sample` draws `n` distinct
positions from the population, which is modelled as taking the first `n`
elements of an environment-chosen permutation `shuffle` of it.  Returns the
selection and whether the warning was emitted. -/
def select_random_images (shuffle : List ImageKey → List ImageKey)
    (records : List GazeRecord) (n : Nat) : List ImageKey × Bool :=
  let valid := qualifying records
  let warned := decide (valid.length < n)
  let n2 := if valid.length < n then valid.length else n
  ((shuffle valid).take n2, warned)

/-! ### DataAnalysis/main.py — temporal heatmap (`create_temporal_heatmap`,
lines 161-218) -/

/-- One valid gaze point as produced by `get_valid_gazes` (lines 69-79):
coordinates are present, the time stamp may be `None`. -/
structure GazePoint where
  x : ℚ
  y : ℚ
  time : Option ℚ
  deriving DecidableEq

/-- Python `int()` on a float: truncation toward zero. -/
def pyInt (q : ℚ) : ℤ := if 0 ≤ q then ⌊q⌋ else ⌈q⌉

/-- `min(max(int(v), 0), upper - 1)` (lines 199-200), as a raster index. -/
def clampPixel (v : ℚ) (upper : Nat) : Nat :=
  (min (max (pyInt v) 0) ((upper : ℤ) - 1)).toNat

/-- The color assigned to a gaze sample from its relative time progress
(lines 204-207): `[1, 2p, 0]` in the first half of the session, `[2-2p, 1, 0]`
in the second half. -/
def temporalColor (timeProgress : ℚ) : ℚ × ℚ × ℚ :=
  if timeProgress < 1/2 then (1, timeProgress * 2, 0)
  else (2 - timeProgress * 2, 1, 0)

/-- `np.zeros((height, width, 3))`. -/
def zeros3 (height width : Nat) : Raster3 :=
  List.replicate height (List.replicate width ((0 : ℚ), (0 : ℚ), (0 : ℚ)))

/-- `heatmap[y, x] = color`. -/
def setPixel (r : Raster3) (y x : Nat) (c : ℚ × ℚ × ℚ) : Raster3 :=
  r.set y ((r.getD y []).set x c)

/-- `create_temporal_heatmap` (lines 180-218) from the selected viewer's
valid gaze points onward.  `gaussian` is the external per-channel Gaussian
blur of lines 211-212.  If the gaze list is empty, or no gaze sample carries
a timestamp (`times` empty), the zero raster is returned untouched;
otherwise every timestamped sample paints its clamped pixel with its
time-progress color, then the raster is blurred and normalized. -/
def create_temporal_heatmap (gaussian : Raster3 → Raster3)
    (height width : Nat) (all_gazes : List GazePoint) : Raster3 :=
  let heatmap0 := zeros3 height width
  if all_gazes.isEmpty then heatmap0
  else
    match all_gazes.filterMap (fun g => g.time) with
    | [] => heatmap0
    | t0 :: trest =>
      let min_time := trest.foldl min t0
      let max_time := trest.foldl max t0
      let time_range := max_time - min_time
      let written := all_gazes.foldl (fun acc g =>
        match g.time with
        | none => acc
        | some t =>
          let x := clampPixel g.x width
          let y := clampPixel g.y height
          let tp := if time_range > 0 then (t - min_time) / time_range
            else 0
          setPixel acc y x (temporalColor tp)) heatmap0
      normalizeRaster3 (gaussian written)

/-! ### Concrete instances for the analysis side -/

/-- Three gaze records of one image group `(testA, img1.jpg)`. -/
def recA : GazeRecord := ⟨"testA".toList, "img1.jpg".toList, "t1".toList⟩

/-- Second record of the group. -/
def recB : GazeRecord := ⟨"testA".toList, "img1.jpg".toList, "t2".toList⟩

/-- Third record of the group. -/
def recC : GazeRecord := ⟨"testA".toList, "img1.jpg".toList, "t3".toList⟩

/-- A gaze dataset with a single image group of three records. -/
def recordsA : List GazeRecord := [recA, recB, recC]

/-- A gaze point with coordinates but no timestamp. -/
def gpNoTime : GazePoint := ⟨1, 2, none⟩

end HAHD

namespace HAHD

/-! ## Helper lemmas for `_process_images` -/

/-- Anything in the saved list survives the rest of the fold: the loop body
only appends to `saved`. -/
theorem saved_mono (raises : PngFile → Bool)
    (rm : List Char → Option (List Char)) (l : List PngFile)
    (st : ImagesState) (j : SavedImage) (hj : j ∈ st.saved) :
    j ∈ (l.foldl (processPng raises rm) st).saved := by
  induction l generalizing st with
  | nil => exact hj
  | cons p rest ih =>
    apply ih
    unfold processPng
    cases hrm : rm p.name with
    | none => exact hj
    | some target =>
      by_cases hr : raises p
      · simp [hr, hj]
      · simp [hr]
        exact Or.inl hj

/-- Processing a successfully converting, mapped PNG that occurs in the
iteration list records its JPEG: basename mapped to `target`, RGB, JPEG,
quality 95. -/
theorem saved_of_success (raises : PngFile → Bool)
    (rm : List Char → Option (List Char)) (l : List PngFile) :
    ∀ (st : ImagesState) (p : PngFile) (target : List Char), p ∈ l →
      rm p.name = some target → raises p = false →
      (⟨target, ['R', 'G', 'B'], ['J', 'P', 'E', 'G'], 95⟩ : SavedImage) ∈
        (l.foldl (processPng raises rm) st).saved := by
  induction l with
  | nil =>
    intro st p target hp _ _
    cases hp
  | cons q rest ih =>
    intro st p target hp hm hok
    rcases List.mem_cons.mp hp with rfl | hp2
    · have hmem :
          (⟨target, ['R', 'G', 'B'], ['J', 'P', 'E', 'G'], 95⟩ :
              SavedImage) ∈ (processPng raises rm st p).saved := by
        simp [processPng, hm, hok]
      exact saved_mono raises rm rest _ _ hmem
    · exact ih _ p target hp2 hm hok

/-- Characterization of the PNG files remaining after the fold: starting from
a duplicate-free file list `cur`, the PNGs left are exactly those that are not
successfully converted during the iteration over `l`. -/
theorem foldl_pngs_filter (raises : PngFile → Bool)
    (rm : List Char → Option (List Char)) (l : List PngFile) :
    ∀ (cur : List PngFile) (js : List SavedImage), cur.Nodup →
      (l.foldl (processPng raises rm) ⟨cur, js⟩).pngs =
        cur.filter
          (fun q => !(pngSuccess raises rm q && decide (q ∈ l))) := by
  induction l with
  | nil =>
    intro cur js _
    simp
  | cons p rest ih =>
    intro cur js hnd
    have hstep :
        processPng raises rm ⟨cur, js⟩ p =
          if pngSuccess raises rm p then
            ⟨cur.erase p, js ++
              [⟨(rm p.name).getD [], ['R', 'G', 'B'], ['J', 'P', 'E', 'G'],
                95⟩]⟩
          else ⟨cur, js⟩ := by
      unfold processPng pngSuccess
      cases hrm : rm p.name with
      | none => simp
      | some target =>
        by_cases hr : raises p <;> simp [hr]
    by_cases hs : pngSuccess raises rm p = true
    · rw [List.foldl_cons, hstep, if_pos hs,
        ih (cur.erase p) _ (List.Nodup.erase p hnd),
        List.Nodup.erase_eq_filter hnd p, List.filter_filter]
      apply List.filter_congr
      intro q _
      by_cases hqp : q = p
      · subst hqp
        simp [hs]
      · simp [hqp, Ne.symm hqp, List.mem_cons]
    · rw [List.foldl_cons, hstep, if_neg hs, ih cur _ hnd]
      apply List.filter_congr
      intro q _
      rw [Bool.not_eq_true] at hs
      by_cases hqp : q = p
      · subst hqp
        simp [hs]
      · simp [hqp, List.mem_cons]

/-! ## Theorems -/

/-- C1: `download_gaze_dataset` tries the three methods in the fixed order
API, hub, HTTPS; a raising method is swallowed and the next one attempted; the
first method that returns without raising ends the chain as a success; and if
all three raise, the troubleshooting checklist is printed and the process
exits with status 1.  Stated as a complete characterization of the routine in
terms of which methods raise. -/
theorem download_fallback_chain (a h t : Bool) (s : GazeDirState) :
    download_gaze_dataset a h t s =
      if a = false then .ok { s with mappingCopy := true }
      else if h = false then .ok { s with gazeCsv := true, mappingCopy := true }
      else if t = false then .ok { s with gazeCsv := true, mappingCopy := true }
      else .troubleshootAndExit1 := by
  cases a <;> cases h <;> cases t <;> rfl

/-- C2: when the first method (the API listing call) returns without raising,
`download_gaze_dataset` reports success and copies the mapping file, yet the
gaze CSV is exactly as absent as it was before: starting from a state without
the gaze CSV, the outcome is success with the mapping copy present and the
gaze CSV still absent, whatever the other two methods would have done. -/
theorem api_success_skips_gaze_csv (h t mc : Bool) :
    download_gaze_dataset false h t ⟨false, mc⟩ = .ok ⟨false, true⟩ := by
  rfl

/-- C4: every found PNG whose basename is a key of the rename map and whose
conversion does not raise is, after `_process_images`, gone from disk, and a
JPEG with the mapped name, RGB mode, JPEG format and quality 95 has been
saved; the statement holds for an arbitrary `raises` environment, so other
files failing to decode or encode does not prevent this file from being
processed. -/
theorem process_images_converts (mapping : List MappingEntry)
    (raises : PngFile → Bool) (pngs : List PngFile) (p : PngFile)
    (target : List Char) (hnd : pngs.Nodup) (hp : p ∈ pngs)
    (hm : rename_map mapping p.name = some target) (hok : raises p = false) :
    p ∉ (_process_images raises mapping pngs).pngs ∧
      (⟨target, ['R', 'G', 'B'], ['J', 'P', 'E', 'G'], 95⟩ : SavedImage) ∈
        (_process_images raises mapping pngs).saved := by
  constructor
  · unfold _process_images
    rw [foldl_pngs_filter raises (rename_map mapping) pngs pngs [] hnd]
    simp [List.mem_filter, pngSuccess, hm, hok, hp]
  · exact saved_of_success raises (rename_map mapping) pngs ⟨pngs, []⟩ p
      target hp hm hok

/-- Witness for C4 at a concrete input: one mapped PNG, nothing raising. -/
theorem process_images_converts_witness :
    ([pngA].Nodup ∧ pngA ∈ [pngA] ∧
        rename_map mappingA pngA.name = some img1jpg ∧
        (fun _ : PngFile => false) pngA = false) ∧
      (pngA ∉ (_process_images (fun _ => false) mappingA [pngA]).pngs ∧
        (⟨img1jpg, ['R', 'G', 'B'], ['J', 'P', 'E', 'G'], 95⟩ :
            SavedImage) ∈
          (_process_images (fun _ => false) mappingA [pngA]).saved) :=
  ⟨⟨by decide, by decide, by decide, rfl⟩,
    process_images_converts mappingA (fun _ => false) [pngA] pngA img1jpg
      (by decide) (by decide) (by decide) rfl⟩

/-- C10: per-file conversion is atomic with respect to its source.  If
conversion of a found PNG raises, the exception is caught before the deletion
step, so the PNG is still on disk afterwards; and a PNG that is gone
afterwards was necessarily mapped, converted without raising, and its JPEG
was saved. -/
theorem process_images_atomic (mapping : List MappingEntry)
    (raises : PngFile → Bool) (pngs : List PngFile) (p : PngFile)
    (hnd : pngs.Nodup) (hp : p ∈ pngs) :
    (raises p = true → p ∈ (_process_images raises mapping pngs).pngs) ∧
      (p ∉ (_process_images raises mapping pngs).pngs →
        ∃ target, rename_map mapping p.name = some target ∧
          raises p = false ∧
          (⟨target, ['R', 'G', 'B'], ['J', 'P', 'E', 'G'], 95⟩ :
              SavedImage) ∈
            (_process_images raises mapping pngs).saved) := by
  have hchar := foldl_pngs_filter raises (rename_map mapping) pngs pngs []
    hnd
  constructor
  · intro hr
    unfold _process_images
    rw [hchar]
    simp [List.mem_filter, pngSuccess, hr, hp]
  · intro hgone
    unfold _process_images at hgone
    rw [hchar] at hgone
    have hS : pngSuccess raises (rename_map mapping) p = true := by
      by_contra hS
      rw [Bool.not_eq_true] at hS
      apply hgone
      apply List.mem_filter.mpr
      exact ⟨hp, by simp [hS]⟩
    simp only [pngSuccess, Bool.and_eq_true, Bool.not_eq_true',
      Option.isSome_iff_exists] at hS
    obtain ⟨⟨target, hm⟩, hok⟩ := hS
    exact ⟨target, hm, hok,
      saved_of_success raises (rename_map mapping) pngs ⟨pngs, []⟩ p target
        hp hm hok⟩

/-- Witness for C10 at a concrete input: one mapped PNG whose conversion
raises; it survives processing. -/
theorem process_images_atomic_witness :
    ([pngA].Nodup ∧ pngA ∈ [pngA]) ∧
      (((fun _ : PngFile => true) pngA = true →
          pngA ∈ (_process_images (fun _ => true) mappingA [pngA]).pngs) ∧
        (pngA ∉ (_process_images (fun _ => true) mappingA [pngA]).pngs →
          ∃ target, rename_map mappingA pngA.name = some target ∧
            (fun _ : PngFile => true) pngA = false ∧
            (⟨target, ['R', 'G', 'B'], ['J', 'P', 'E', 'G'], 95⟩ :
                SavedImage) ∈
              (_process_images (fun _ => true) mappingA [pngA]).saved)) :=
  ⟨⟨by decide, by decide⟩,
    process_images_atomic mappingA (fun _ => true) [pngA] pngA (by decide)
      (by decide)⟩

/-- C9 counterexample: PNG files can remain under the cityscapes directory
after processing completes.  The mapping needs `a_leftImg8bit.png`; the
archive entry named `xa_leftImg8bit.png` is extracted, because the needed
name is a substring of it, and it matches the recursive glob
`*_leftImg8bit.png`; but its basename is not a key of the rename map, so
`_process_images` never converts or deletes it and a PNG remains even though
every conversion attempt succeeded. -/
theorem pngs_can_remain_after_processing :
    extractPrune [⟨'a' :: suffixLI, img1jpg⟩]
        [('x' :: 'a' :: suffixLI)] = [('x' :: 'a' :: suffixLI)] ∧
      (_process_images (fun _ => false) [⟨'a' :: suffixLI, img1jpg⟩]
          [⟨'x' :: 'a' :: suffixLI, 'x' :: 'a' :: suffixLI⟩]).pngs =
        [⟨'x' :: 'a' :: suffixLI, 'x' :: 'a' :: suffixLI⟩] := by
  constructor
  · decide
  · decide

/-- C9 as amended: after processing, PNGs may remain for extracted files
whose basename is not a mapping key or whose conversion raised; when every
found PNG has a mapped basename and no conversion raises, no PNG file
remains. -/
theorem no_pngs_remain_when_all_mapped (mapping : List MappingEntry)
    (raises : PngFile → Bool) (pngs : List PngFile) (hnd : pngs.Nodup)
    (hall : ∀ p ∈ pngs,
      (rename_map mapping p.name).isSome = true ∧ raises p = false) :
    (_process_images raises mapping pngs).pngs = [] := by
  unfold _process_images
  rw [foldl_pngs_filter raises (rename_map mapping) pngs pngs [] hnd]
  rw [List.filter_eq_nil_iff]
  intro p hp
  simp [pngSuccess, (hall p hp).1, (hall p hp).2, hp]

/-- Witness for the amended C9 at a concrete input. -/
theorem no_pngs_remain_witness :
    ([pngA].Nodup ∧
        (∀ p ∈ [pngA], (rename_map mappingA p.name).isSome = true ∧
          (fun _ : PngFile => false) p = false)) ∧
      (_process_images (fun _ => false) mappingA [pngA]).pngs = [] :=
  ⟨⟨by decide, by decide⟩,
    no_pngs_remain_when_all_mapped mappingA (fun _ => false) [pngA]
      (by decide) (by decide)⟩

/-- C5: setup verification passes iff the gaze-data CSV exists at its fixed
path and at least one `.jpg` file was found under the cityscapes tree; on
failure the run exits with status 1. -/
theorem verify_setup_iff (g : Bool) (jpgs : List (List Char)) :
    setup_finalize g jpgs = .complete ↔ (g = true ∧ jpgs ≠ []) := by
  cases g <;> cases jpgs <;> simp [setup_finalize, verify_setup]

/-- C3: the archive-pruning loop extracts an entry iff its name contains at
least one of the mapping table's `cityscapeName` values as a substring; an
entry containing none of them is never extracted. -/
theorem extract_iff_substring (mapping : List MappingEntry)
    (namelist : List (List Char)) (file : List Char) :
    file ∈ extractPrune mapping namelist ↔
      file ∈ namelist ∧
        ∃ e ∈ mapping, hasSubstr e.cityscapeName file = true := by
  simp only [extractPrune, needed_images, List.mem_filter, List.any_eq_true,
    List.mem_dedup, List.mem_map]
  constructor
  · rintro ⟨hmem, n, ⟨e, he, rfl⟩, hsub⟩
    exact ⟨hmem, e, he, hsub⟩
  · rintro ⟨hmem, e, he, hsub⟩
    exact ⟨hmem, e.cityscapeName, ⟨e, he, rfl⟩, hsub⟩

/-! ## Helper lemmas for the heatmap normalization -/

/-- Folding `max` never falls below the seed. -/
theorem foldl_max_init_le (l : List ℚ) (a : ℚ) : a ≤ l.foldl max a := by
  induction l generalizing a with
  | nil => exact le_refl a
  | cons b t ih => exact le_trans (le_max_left a b) (ih (max a b))

/-- Folding `max` dominates every element of the list. -/
theorem le_foldl_max_of_mem (l : List ℚ) :
    ∀ (a x : ℚ), x ∈ l → x ≤ l.foldl max a := by
  induction l with
  | nil =>
    intro a x hx
    cases hx
  | cons b t ih =>
    intro a x hx
    rcases List.mem_cons.mp hx with rfl | hx2
    · exact le_trans (le_max_right a x) (foldl_max_init_le t (max a x))
    · exact ih (max a b) x hx2

/-- Folding `max` stays below any common upper bound. -/
theorem foldl_max_le (l : List ℚ) :
    ∀ (a c : ℚ), a ≤ c → (∀ x ∈ l, x ≤ c) → l.foldl max a ≤ c := by
  induction l with
  | nil =>
    intro a c ha _
    exact ha
  | cons b t ih =>
    intro a c ha hl
    exact ih (max a b) c (max_le ha (hl b (List.mem_cons_self b t)))
      (fun x hx => hl x (List.mem_cons_of_mem b hx))

/-- Flattening commutes with dividing every channel by a constant. -/
theorem flatten3_div (r : Raster3) (m : ℚ) :
    flatten3 (r.map (fun row => row.map (fun c =>
        (c.1 / m, c.2.1 / m, c.2.2 / m)))) =
      (flatten3 r).map (fun v => v / m) := by
  unfold flatten3
  rw [List.map_map, List.map_flatten, List.map_map]
  apply congrArg List.flatten
  apply List.map_congr_left
  intro row _
  simp only [Function.comp_def, List.map_map, List.map_flatten]
  apply congrArg List.flatten
  apply List.map_congr_left
  intro c _
  rfl

end HAHD

namespace HAHD

/-! ## Theorems for the analysis pipeline -/

/-- C6: the normalization step shared by the three heatmap variants maps a
raster of non-negative values into `[0, 1]`, and on an all-zero raster the
normalization is skipped (the maximum is not positive) so the raster stays
all zero with no division performed.  Stated both for the scalar rasters of
the aggregate and viewer-separated variants and for the 3-channel raster of
the temporal variant. -/
theorem heatmap_normalization (values : List ℚ) (r : Raster3)
    (hnn : ∀ x ∈ values, 0 ≤ x) (hrn : ∀ x ∈ flatten3 r, 0 ≤ x) :
    (∀ y ∈ normalizeHeatmap values, 0 ≤ y ∧ y ≤ 1) ∧
      ((∀ x ∈ values, x = 0) → normalizeHeatmap values = values) ∧
      (∀ y ∈ flatten3 (normalizeRaster3 r), 0 ≤ y ∧ y ≤ 1) ∧
      ((∀ x ∈ flatten3 r, x = 0) → normalizeRaster3 r = r) := by
  have bounds : ∀ (l : List ℚ), (∀ x ∈ l, 0 ≤ x) → 0 < npMax l →
      ∀ y ∈ l.map (fun v => v / npMax l), 0 ≤ y ∧ y ≤ 1 := by
    intro l hl hpos y hy
    rcases List.mem_map.mp hy with ⟨x, hx, rfl⟩
    constructor
    · exact div_nonneg (hl x hx) (le_of_lt hpos)
    · rw [div_le_one hpos]
      exact le_foldl_max_of_mem l 0 x hx
  have zero_max : ∀ (l : List ℚ), (∀ x ∈ l, x = 0) → ¬0 < npMax l := by
    intro l hl
    rw [not_lt]
    exact foldl_max_le l 0 0 (le_refl 0) (fun x hx => le_of_eq (hl x hx))
  refine ⟨?_, ?_, ?_, ?_⟩
  · intro y hy
    unfold normalizeHeatmap at hy
    by_cases hpos : 0 < npMax values
    · rw [if_pos hpos] at hy
      exact bounds values hnn hpos y hy
    · rw [if_neg hpos] at hy
      refine ⟨hnn y hy, ?_⟩
      calc y ≤ npMax values := le_foldl_max_of_mem values 0 y hy
        _ ≤ 0 := not_lt.mp hpos
        _ ≤ 1 := by norm_num
  · intro hz
    unfold normalizeHeatmap
    rw [if_neg (zero_max values hz)]
  · intro y hy
    unfold normalizeRaster3 at hy
    by_cases hpos : 0 < raster3Max r
    · rw [if_pos hpos] at hy
      rw [flatten3_div] at hy
      exact bounds (flatten3 r) hrn hpos y hy
    · rw [if_neg hpos] at hy
      refine ⟨hrn y hy, ?_⟩
      calc y ≤ npMax (flatten3 r) := le_foldl_max_of_mem (flatten3 r) 0 y hy
        _ ≤ 0 := not_lt.mp hpos
        _ ≤ 1 := by norm_num
  · intro hz
    unfold normalizeRaster3 raster3Max
    rw [if_neg (zero_max (flatten3 r) hz)]

/-- Witness for C6 at concrete rasters: a scalar raster `[0, 2]` and a
one-pixel 3-channel raster with values `(0, 2, 0)`. -/
theorem heatmap_normalization_witness :
    ((∀ x ∈ ([0, 2] : List ℚ), 0 ≤ x) ∧
        (∀ x ∈ flatten3 [[((0 : ℚ), (2 : ℚ), (0 : ℚ))]], 0 ≤ x)) ∧
      ((∀ y ∈ normalizeHeatmap [0, 2], 0 ≤ y ∧ y ≤ 1) ∧
        ((∀ x ∈ ([0, 2] : List ℚ), x = 0) →
          normalizeHeatmap [0, 2] = [0, 2]) ∧
        (∀ y ∈ flatten3 (normalizeRaster3 [[((0 : ℚ), (2 : ℚ), (0 : ℚ))]]),
          0 ≤ y ∧ y ≤ 1) ∧
        ((∀ x ∈ flatten3 [[((0 : ℚ), (2 : ℚ), (0 : ℚ))]], x = 0) →
          normalizeRaster3 [[((0 : ℚ), (2 : ℚ), (0 : ℚ))]] =
            [[((0 : ℚ), (2 : ℚ), (0 : ℚ))]])) :=
  ⟨⟨by decide, by decide⟩,
    heatmap_normalization [0, 2] [[((0 : ℚ), (2 : ℚ), (0 : ℚ))]]
      (by decide) (by decide)⟩

/-- C7: `select_random_images` draws only from the qualifying groups (those
with more than 2 records), without replacement; and when only `k < n` groups
qualify, exactly those `k` groups are returned (as a permutation of the
qualifying list) together with the warning, and no exception is raised (the
sample size is shrunk to `k` first).  `shuffle` is the permutation chosen by
`random.sample`. -/
theorem select_random_images_spec (shuffle : List ImageKey → List ImageKey)
    (records : List GazeRecord) (n : Nat)
    (hs : List.Perm (shuffle (qualifying records)) (qualifying records)) :
    ((select_random_images shuffle records n).1 ⊆ qualifying records) ∧
      (select_random_images shuffle records n).1.Nodup ∧
      (select_random_images shuffle records n).1.length =
        min n (qualifying records).length ∧
      ((qualifying records).length < n →
        List.Perm (select_random_images shuffle records n).1
          (qualifying records) ∧
          (select_random_images shuffle records n).2 = true) := by
  have hqnd : (qualifying records).Nodup :=
    List.Nodup.filter _ (List.nodup_dedup _)
  have hsnd : (shuffle (qualifying records)).Nodup := hs.nodup_iff.mpr hqnd
  have hlen : (shuffle (qualifying records)).length =
      (qualifying records).length := hs.length_eq
  refine ⟨?_, ?_, ?_, ?_⟩
  · intro x hx
    exact hs.subset (List.take_subset _ _ hx)
  · exact List.Nodup.sublist (List.take_sublist _ _) hsnd
  · unfold select_random_images
    rw [List.length_take, hlen]
    by_cases hlt : (qualifying records).length < n
    · rw [if_pos hlt, Nat.min_self, Nat.min_eq_right (le_of_lt hlt)]
    · rw [if_neg hlt, Nat.min_eq_left (Nat.le_of_not_lt hlt)]
  · intro hlt
    constructor
    · simp only [select_random_images]
      rw [if_pos hlt]
      rw [List.take_of_length_le (le_of_eq hlen)]
      exact hs
    · simp only [select_random_images]
      exact decide_eq_true hlt

/-- Witness for C7 at a concrete input: one qualifying group of three
records, four groups requested, identity shuffle. -/
theorem select_random_images_witness :
    List.Perm (id (qualifying recordsA)) (qualifying recordsA) ∧
      (((select_random_images id recordsA 4).1 ⊆ qualifying recordsA) ∧
        (select_random_images id recordsA 4).1.Nodup ∧
        (select_random_images id recordsA 4).1.length =
          min 4 (qualifying recordsA).length ∧
        ((qualifying recordsA).length < 4 →
          List.Perm (select_random_images id recordsA 4).1
            (qualifying recordsA) ∧
            (select_random_images id recordsA 4).2 = true)) :=
  ⟨List.Perm.refl _,
    select_random_images_spec id recordsA 4 (List.Perm.refl _)⟩

/-- C8 counterexample: the claim says the temporal color goes from red to
green over the first half of the session and from green back to red over the
second half.  In the code the color at the midpoint is yellow `(1, 1, 0)`
(not green) and the color at the end of the session is green `(0, 1, 0)`,
not red: the sweep never comes back to red. -/
theorem temporal_color_not_back_to_red :
    temporalColor (1 / 2) = (1, 1, 0) ∧ temporalColor 1 = (0, 1, 0) ∧
      temporalColor 1 ≠ (1, 0, 0) := by
  refine ⟨?_, ?_, ?_⟩ <;> norm_num [temporalColor]

/-- C8 as amended: the temporal color sweeps from red at the start of the
session through yellow at the midpoint to green at the end: over the first
half the green channel rises (`(1, 2p, 0)`), over the second half the red
channel falls (`(2 - 2p, 1, 0)`); and if no gaze sample of the selected
viewer carries a timestamp, the returned 3-channel raster is all zero. -/
theorem temporal_heatmap_amended (gaussian : Raster3 → Raster3)
    (height width : Nat) (all_gazes : List GazePoint) (tp : ℚ)
    (hnone : ∀ g ∈ all_gazes, g.time = none) :
    temporalColor 0 = (1, 0, 0) ∧
      temporalColor (1 / 2) = (1, 1, 0) ∧
      temporalColor 1 = (0, 1, 0) ∧
      (tp < 1 / 2 → temporalColor tp = (1, tp * 2, 0)) ∧
      (1 / 2 ≤ tp → temporalColor tp = (2 - tp * 2, 1, 0)) ∧
      create_temporal_heatmap gaussian height width all_gazes =
        zeros3 height width := by
  have htimes : all_gazes.filterMap (fun g => g.time) = [] := by
    rw [List.filterMap_eq_nil_iff]
    exact hnone
  refine ⟨by norm_num [temporalColor], by norm_num [temporalColor],
    by norm_num [temporalColor], ?_, ?_, ?_⟩
  · intro h
    rw [temporalColor, if_pos h]
  · intro h
    rw [temporalColor, if_neg (not_lt.mpr h)]
  · simp [create_temporal_heatmap, htimes]

/-- Witness for the amended C8 at a concrete input: one timestampless gaze
point, identity blur, a 2×2 raster, progress 0. -/
theorem temporal_heatmap_amended_witness :
    (∀ g ∈ [gpNoTime], g.time = none) ∧
      (temporalColor 0 = (1, 0, 0) ∧
        temporalColor (1 / 2) = (1, 1, 0) ∧
        temporalColor 1 = (0, 1, 0) ∧
        ((0 : ℚ) < 1 / 2 → temporalColor 0 = (1, 0 * 2, 0)) ∧
        ((1 : ℚ) / 2 ≤ 0 → temporalColor 0 = (2 - 0 * 2, 1, 0)) ∧
        create_temporal_heatmap id 2 2 [gpNoTime] = zeros3 2 2) :=
  ⟨by decide, temporal_heatmap_amended id 2 2 [gpNoTime] 0 (by decide)⟩

end HAHD
